import Mathlib

/-!
Verification of the GATT (Generic Attribute Profile) API layer of the
Zephyr Bluetooth host stack, as exposed by `include/zephyr/bluetooth/gatt.h`.

The header is the authoritative source present in the repository.  Pure
functions defined in the header (`BT_GATT_ERR`, `bt_gatt_err_to_str`,
`bt_gatt_notify`, `bt_gatt_notify_uuid`, `bt_gatt_write_without_response`)
are embedded directly.  Engine behaviour implemented in `gatt.c` (which is
not part of the repository snapshot) is modelled from the specification, as
marked in the doc comment of each such definition.
-/

namespace Gatt

/-! ## Definitions -/

/-- GATT attribute permission bit: attribute read permission (`BIT(0)`). -/
def BT_GATT_PERM_READ : Nat := 1

/-- GATT attribute permission bit: attribute write permission (`BIT(1)`). -/
def BT_GATT_PERM_WRITE : Nat := 2

/-- GATT attribute permission bit: read requires encryption (`BIT(2)`). -/
def BT_GATT_PERM_READ_ENCRYPT : Nat := 4

/-- GATT attribute permission bit: write requires encryption (`BIT(3)`). -/
def BT_GATT_PERM_WRITE_ENCRYPT : Nat := 8

/-- GATT attribute permission bit: read requires authentication (`BIT(4)`). -/
def BT_GATT_PERM_READ_AUTHEN : Nat := 16

/-- GATT attribute permission bit: write requires authentication (`BIT(5)`). -/
def BT_GATT_PERM_WRITE_AUTHEN : Nat := 32

/-- GATT attribute permission bit: prepare write allowed (`BIT(6)`). -/
def BT_GATT_PERM_PREPARE_WRITE : Nat := 64

/-- GATT attribute permission bit: read requires LE Secure Connections (`BIT(7)`). -/
def BT_GATT_PERM_READ_LESC : Nat := 128

/-- GATT attribute permission bit: write requires LE Secure Connections (`BIT(8)`). -/
def BT_GATT_PERM_WRITE_LESC : Nat := 256

/-- Iterator callback return value requesting the procedure to stop
(`BT_GATT_ITER_STOP = 0` in `enum bt_gatt_iter`). -/
def BT_GATT_ITER_STOP : Nat := 0

/-- Iterator callback return value requesting the procedure to continue
(`BT_GATT_ITER_CONTINUE = 1` in `enum bt_gatt_iter`). -/
def BT_GATT_ITER_CONTINUE : Nat := 1

/-- The header macro `#define BT_GATT_ERR(_att_err) (-(_att_err))`:
it turns a (non-negative) ATT error code into the negative value used by
attribute read/write callbacks. -/
def BT_GATT_ERR (att_err : Int) : Int := -att_err

/-- The header inline function
`bt_gatt_err_to_str(int gatt_err) { return bt_att_err_to_str((gatt_err) < 0 ? -(gatt_err) : (gatt_err)); }`.
`bt_att_err_to_str` lives in `att.h`, which is not part of the repository
snapshot, so it is taken as an abstract string table passed in as an
argument. -/
def bt_gatt_err_to_str (bt_att_err_to_str : Int → String) (gatt_err : Int) : String :=
  bt_att_err_to_str (if gatt_err < 0 then -gatt_err else gatt_err)

/-- ATT channel options (`enum bt_att_chan_opt` from `att.h`);
`BT_ATT_CHAN_OPT_NONE` has value `0`, so a `memset`-zeroed field holds it. -/
inductive bt_att_chan_opt where
  | NONE
  | UNENHANCED_ONLY
  | ENHANCED_ONLY
deriving DecidableEq

/-- Notification parameters `struct bt_gatt_notify_params` from the header.
Pointer fields are modelled as `Option` over opaque types; `len` is the
`uint16_t` length field; `chan_opt` is present when `CONFIG_BT_EATT` is
enabled. -/
structure bt_gatt_notify_params (UUID Attr Data Func UserData : Type) where
  uuid : Option UUID
  attr : Option Attr
  data : Option Data
  len : Nat
  func : Option Func
  user_data : Option UserData
  chan_opt : bt_att_chan_opt

/-- The header inline function `bt_gatt_notify`: it `memset`s a
`bt_gatt_notify_params` to zero (all pointers `NULL`, `len` 0,
`chan_opt` 0), sets `attr`, `data`, `len`, sets `chan_opt` to
`BT_ATT_CHAN_OPT_NONE`, and calls `bt_gatt_notify_cb` with it.
`bt_gatt_notify_cb` itself is implemented in `gatt.c` (absent from the
snapshot) and is therefore an abstract argument here. -/
def bt_gatt_notify {Conn UUID Attr Data Func UserData : Type}
    (bt_gatt_notify_cb :
      Option Conn → bt_gatt_notify_params UUID Attr Data Func UserData → Int)
    (conn : Option Conn) (attr : Option Attr) (data : Option Data) (len : Nat) : Int :=
  let params : bt_gatt_notify_params UUID Attr Data Func UserData :=
    { uuid := none, attr := none, data := none, len := 0,
      func := none, user_data := none, chan_opt := .NONE }
  let params := { params with attr := attr, data := data, len := len,
                              chan_opt := .NONE }
  bt_gatt_notify_cb conn params

/-- Modelled from the spec: the client procedure engine of `gatt.c` (absent
from the snapshot), §4.6: per response item the procedure callback is
invoked with the item; if it returns `BT_GATT_ITER_CONTINUE` the engine
continues, otherwise it stops without any further invocation; when the data
is exhausted the engine invokes the callback one final time with the
sentinel "no more data" value (discovery: `NULL` attribute; read: `NULL`
data), here `none`.  The returned list is the sequence of callback
invocations, `some x` for a data item, `none` for the sentinel. -/
def runProcedure {α : Type} (items : List α) (cb : α → Nat) : List (Option α) :=
  match items with
  | [] => [none]
  | x :: xs =>
    if cb x = BT_GATT_ITER_CONTINUE then some x :: runProcedure xs cb else [some x]

/-- ATT error code `BT_ATT_ERR_UNLIKELY` (0x0e): per the header,
`bt_gatt_cancel` simulates a `BT_ATT_ERR_UNLIKELY` response, and a
disconnect force-completes in-flight procedures with a terminal error. -/
def BT_ATT_ERR_UNLIKELY : Nat := 14

/-- Lifecycle state of one issued indication parameter block. -/
inductive IndState where
  | inflight
  | destroyed
deriving DecidableEq

/-- Termination-path signals that can reach an in-flight indication:
peer acknowledgment, peer protocol error, local cancellation, and
disconnection.  After termination, stale signals may still race in
(e.g. a disconnect arriving right after the acknowledgment). -/
inductive IndSignal where
  | ack
  | protoErr (e : Nat)
  | cancel
  | disconnect
deriving DecidableEq

/-- Outcome error value passed to the completion callback for each
termination path: 0 for acknowledgment, the peer's error for a protocol
error, and `BT_ATT_ERR_UNLIKELY` for cancellation or disconnection. -/
def signalErr : IndSignal → Nat
  | .ack => 0
  | .protoErr e => e
  | .cancel => BT_ATT_ERR_UNLIKELY
  | .disconnect => BT_ATT_ERR_UNLIKELY

/-- Observable callback events on one indication parameter block. -/
inductive IndEvent where
  | func_cb (err : Nat)
  | destroy_cb
deriving DecidableEq

/-- Modelled from the spec: the indication tracking of `gatt.c` (absent
from the snapshot), §4.4/§5: the dispatcher tracks the request until the
first terminating signal arrives; at that point it invokes the completion
callback `func` with the outcome and then the `destroy` callback, and the
parameter block leaves the in-flight state; signals arriving after
termination are ignored (the block is no longer tracked). -/
def indStep : IndState → IndSignal → IndState × List IndEvent
  | .inflight, s => (.destroyed, [.func_cb (signalErr s), .destroy_cb])
  | .destroyed, _ => (.destroyed, [])

/-- Run the indication state machine over a sequence of incoming signals,
collecting the callback events it emits in order. -/
def indRun : IndState → List IndSignal → List IndEvent
  | _, [] => []
  | st, s :: rest =>
    let step := indStep st s
    step.2 ++ indRun step.1 rest

/-- Errno value `ENOMEM` (12); issuing calls return `-ENOMEM` when the ATT
request queue is full (header: "ATT request queue is full and blocking
would cause deadlock", queue sized by `CONFIG_BT_ATT_TX_COUNT`). -/
def ENOMEM : Int := 12

/-- Observable events of an issuing call; a completion callback would show
up as `complete_cb`. -/
inductive ReqEvent where
  | complete_cb (err : Nat)
deriving DecidableEq

/-- State of the per-connection ATT request queue: a fixed capacity
(`CONFIG_BT_ATT_TX_COUNT`) and the identifiers of pending requests. -/
structure AttQueue where
  capacity : Nat
  pending : List Nat
deriving DecidableEq

/-- Modelled from the spec: the request-issuing path of `gatt.c` (absent
from the snapshot), §5/§7(2): `bt_gatt_discover`, `bt_gatt_read`,
`bt_gatt_write`, `bt_gatt_subscribe` and `bt_gatt_exchange_mtu` all try to
allocate a slot in the bounded outstanding-request pool; if the pool is
exhausted the call fails immediately with `-ENOMEM`, invoking no callback
and leaving the queue unchanged; otherwise it returns 0 and the request is
enqueued.  The result is (return value, new queue state, events emitted by
the call itself). -/
def bt_gatt_issue (q : AttQueue) (req : Nat) : Int × AttQueue × List ReqEvent :=
  if q.pending.length ≥ q.capacity then
    (-ENOMEM, q, [])
  else
    (0, { q with pending := q.pending ++ [req] }, [])

/-- A registered GATT service as visible in the database: the member
attribute handles in registration order, and the service declaration's
`end_handle` (cf. `struct bt_gatt_service_val`). -/
structure RegService where
  handles : List Nat
  end_handle : Nat
deriving DecidableEq

/-- Requested handle resolution: a requested handle of 0 means the handle
was not fixed by the application (`_auto_assigned_handle`) and the stack
assigns the next free handle. -/
def resolveHandle (next r : Nat) : Nat := if r = 0 then next else r

/-- Modelled from the spec: handle assignment at service registration in
`gatt.c` (absent from the snapshot), §3/§4.1: handles are assigned at
registration unless explicitly fixed by the caller, are unique and
monotonically increasing, and member attributes of a service occupy a
contiguous range.  Starting from the next free handle, each attribute
either auto-assigns the next contiguous handle (request 0) or carries a
fixed handle: the service's first attribute may start at or after the next
free handle, and every later fixed handle must be exactly the next
contiguous one; otherwise registration fails (`none`). -/
def assignHandles : Nat → Bool → List Nat → Option (List Nat)
  | _, _, [] => some []
  | next, true, r :: rest =>
    if next ≤ resolveHandle next r then
      (assignHandles (resolveHandle next r + 1) false rest).map
        (fun hs => resolveHandle next r :: hs)
    else none
  | next, false, r :: rest =>
    if resolveHandle next r = next then
      (assignHandles (resolveHandle next r + 1) false rest).map
        (fun hs => resolveHandle next r :: hs)
    else none

/-- Largest handle currently used by a registered service. -/
def svcMaxHandle (s : RegService) : Nat := s.handles.foldr max 0

/-- Next free handle of the database (1 when the database is empty). -/
def dbNextHandle (db : List RegService) : Nat :=
  (db.map svcMaxHandle).foldr max 0 + 1

/-- Modelled from the spec: `bt_gatt_service_register` of `gatt.c` (absent
from the snapshot), §4.1: atomically assigns contiguous handles to the
service's attributes (or validates fixed ones), fails if the 16-bit handle
address space would be exhausted, and records the service with its
`end_handle` equal to the handle of its last member attribute. -/
def bt_gatt_service_register (db : List RegService) (req : List Nat) :
    Option (List RegService) :=
  if req.isEmpty then none
  else
    match assignHandles (dbNextHandle db) true req with
    | none => none
    | some hs =>
      if hs.getLast?.getD 0 > 0xFFFF then none
      else some (db ++ [⟨hs, hs.getLast?.getD 0⟩])

/-- Modelled from the spec: `bt_gatt_service_unregister` of `gatt.c`
(absent from the snapshot), §3/§4.1: removes the registered service from
the database; fails if the service is not registered. -/
def bt_gatt_service_unregister (db : List RegService) (svc : RegService) :
    Option (List RegService) :=
  if svc ∈ db then some (db.erase svc) else none

/-- A database operation: register a service given its requested attribute
handles (0 = auto-assign), or unregister a registered service. -/
inductive GattOp where
  | register (req : List Nat)
  | unregister (svc : RegService)

/-- Apply one operation; a failing operation leaves the database unchanged
(registration is atomic). -/
def applyOp (db : List RegService) : GattOp → List RegService
  | .register req => (bt_gatt_service_register db req).getD db
  | .unregister svc => (bt_gatt_service_unregister db svc).getD db

/-- Apply a sequence of register/unregister operations. -/
def applyOps (ops : List GattOp) (db : List RegService) : List RegService :=
  ops.foldl applyOp db

/-- The per-service invariant claimed for every registered service: the
member handles are non-empty, contiguous (each successor is predecessor
plus one), strictly ascending (hence unique), valid non-zero 16-bit
values, and the service declaration's `end_handle` is the last member's
handle. -/
def serviceWF (s : RegService) : Prop :=
  s.handles ≠ [] ∧
  s.handles.Chain' (fun a b => b = a + 1) ∧
  s.handles.Pairwise (· < ·) ∧
  (∀ h ∈ s.handles, 1 ≤ h ∧ h ≤ 0xFFFF) ∧
  s.end_handle = s.handles.getLast?.getD 0

instance (s : RegService) : Decidable (serviceWF s) := by
  unfold serviceWF
  infer_instance

/-- Database invariant: every registered service satisfies `serviceWF`. -/
def dbWF (db : List RegService) : Prop := ∀ s ∈ db, serviceWF s

/-- Concrete operation sequence exercised by the C2 witness. -/
def c2WitnessOps : List GattOp :=
  [GattOp.register [0, 0, 0], GattOp.register [0],
   GattOp.unregister ⟨[1, 2, 3], 3⟩]

/-- Requested operation on an attribute. -/
inductive AttOp where
  | read
  | write
deriving DecidableEq

/-- Security state of a connection as queried from the transport
collaborator (§6(c)): whether the link is encrypted, whether the link key
is authenticated, and whether LE Secure Connections is in use. -/
structure ConnSecurity where
  encrypted : Bool
  authenticated : Bool
  lesc : Bool
deriving DecidableEq

/-- The specific protocol error codes of §4.2/§7(1). -/
inductive GateError where
  | insufficientPermission
  | insufficientAuthentication
  | insufficientEncryption
  | notAuthorized
deriving DecidableEq

/-- Permission bit required for the operation itself. -/
def requiredPermBit : AttOp → Nat
  | .read => BT_GATT_PERM_READ
  | .write => BT_GATT_PERM_WRITE

/-- Permission bit demanding encryption for the operation. -/
def encryptBit : AttOp → Nat
  | .read => BT_GATT_PERM_READ_ENCRYPT
  | .write => BT_GATT_PERM_WRITE_ENCRYPT

/-- Permission bit demanding authentication for the operation. -/
def authenBit : AttOp → Nat
  | .read => BT_GATT_PERM_READ_AUTHEN
  | .write => BT_GATT_PERM_WRITE_AUTHEN

/-- Permission bit demanding LE Secure Connections for the operation. -/
def lescBit : AttOp → Nat
  | .read => BT_GATT_PERM_READ_LESC
  | .write => BT_GATT_PERM_WRITE_LESC

/-- Test a bit of the 15-bit permission mask (`bt_gatt_attr.perm`). -/
def hasBit (perm bit : Nat) : Bool := perm &&& bit != 0

/-- Events observable while the server handles one read/write request. -/
inductive ServerEvent where
  | capability_invoked
  | error_sent (e : GateError)
  | result_sent
deriving DecidableEq

/-- Modelled from the spec: the permission and authorization gate of
`gatt.c` (absent from the snapshot), §4.2: before invoking an attribute's
read/write capability the server verifies the operation's required
permission bit, then the security requirements encoded in the mask
(authentication, LE Secure Connections, encryption) against the
connection's security state, then consults the registered authorization
callback (`authzOk` is its verdict, `true` when no callback is
registered); the first failing check sends the corresponding specific
error and the capability is not invoked.  The result is the list of
observable events of the request. -/
def processRequest (op : AttOp) (perm : Nat) (sec : ConnSecurity)
    (authzOk : Bool) : List ServerEvent :=
  if hasBit perm (requiredPermBit op) = false then
    [.error_sent .insufficientPermission]
  else if hasBit perm (authenBit op) && !sec.authenticated then
    [.error_sent .insufficientAuthentication]
  else if hasBit perm (lescBit op) && !sec.lesc then
    [.error_sent .insufficientAuthentication]
  else if hasBit perm (encryptBit op) && !sec.encrypted then
    [.error_sent .insufficientEncryption]
  else if !authzOk then
    [.error_sent .notAuthorized]
  else
    [.capability_invoked, .result_sent]

/-- CCC value bit enabling notifications (`BT_GATT_CCC_NOTIFY`, 0x0001). -/
def BT_GATT_CCC_NOTIFY : Nat := 1

/-- CCC value bit enabling indications (`BT_GATT_CCC_INDICATE`, 0x0002). -/
def BT_GATT_CCC_INDICATE : Nat := 2

/-- One CCC configuration entry (`struct bt_gatt_ccc_cfg`): local identity,
peer address (abstracted to a number), and this peer's subscription value. -/
structure bt_gatt_ccc_cfg where
  id : Nat
  peer : Nat
  value : Nat
deriving DecidableEq

/-- Managed CCC user data (`struct bt_gatt_ccc_managed_user_data`): the
per-peer configuration table (capacity `BT_GATT_CCC_MAX`) and the "highest
value of all connected peer's subscriptions".  The callbacks are modelled
as emitted events. -/
structure CccManagedData where
  cfg : List bt_gatt_ccc_cfg
  value : Nat
deriving DecidableEq

/-- The cross-peer aggregate: the highest subscription value over all
entries (the header documents the `value` field as the highest value of
all connected peers' subscriptions). -/
def cccAggregate (cfgs : List bt_gatt_ccc_cfg) : Nat :=
  cfgs.foldr (fun c acc => max c.value acc) 0

/-- Observable callback events of a CCC write. -/
inductive CccEvent where
  | cfg_changed (value : Nat)
deriving DecidableEq

/-- Update or append the (identity, peer) entry with the written value. -/
def cccUpdateCfg (cfgs : List bt_gatt_ccc_cfg) (id peer value : Nat) :
    List bt_gatt_ccc_cfg :=
  if cfgs.any (fun c => c.id == id && c.peer == peer) then
    cfgs.map (fun c =>
      if c.id == id && c.peer == peer then { c with value := value } else c)
  else
    cfgs ++ [⟨id, peer, value⟩]

/-- Recompute the aggregate over the updated table and emit `cfg_changed`
exactly once iff the aggregate changed. -/
def cccApply (st : CccManagedData) (cfgs : List bt_gatt_ccc_cfg) :
    CccManagedData × List CccEvent :=
  ({ cfg := cfgs, value := cccAggregate cfgs },
   if cccAggregate cfgs = st.value then [] else [.cfg_changed (cccAggregate cfgs)])

/-- Modelled from the spec: `bt_gatt_attr_write_ccc` of `gatt.c` (absent
from the snapshot), §4.5: validate the requested value against the
supported notify/indicate flags, find or lazily create the per
(identity, peer) entry (bounded by the fixed capacity `maxEntries` =
`BT_GATT_CCC_MAX`; creation fails with out-of-resources when full), store
the value, recompute the cross-peer aggregate, and invoke the
`cfg_changed` callback exactly once with the new aggregate only if the
aggregate actually changed.  `none` models an error return. -/
def bt_gatt_attr_write_ccc (maxEntries : Nat) (st : CccManagedData)
    (id peer value : Nat) : Option (CccManagedData × List CccEvent) :=
  if value &&& (BT_GATT_CCC_NOTIFY ||| BT_GATT_CCC_INDICATE) ≠ value then
    none
  else if !(st.cfg.any (fun c => c.id == id && c.peer == peer)) &&
      decide (maxEntries ≤ st.cfg.length) then
    none
  else
    some (cccApply st (cccUpdateCfg st.cfg id peer value))

/-- Errno value `EINVAL` (22). -/
def EINVAL : Int := 22

/-- Errno value `ERANGE` (34). -/
def ERANGE : Int := 34

/-- Errno value `EPERM` (1). -/
def EPERM : Int := 1

/-- Errno value `EOPNOTSUPP` (95). -/
def EOPNOTSUPP : Int := 95

/-- One record of `bt_gatt_notify_multiple`'s `params` array, as far as
its checks are concerned: whether a UUID was supplied instead of an
explicit attribute reference, whether the referenced attribute is a valid
notifiable attribute, the value length, and the callback/user-data pair
(numbers standing for the pointers). -/
structure MultiNtfParam where
  has_uuid : Bool
  attr_valid : Bool
  len : Nat
  func : Nat
  user_data : Nat
deriving DecidableEq

/-- Connection context of a multi-notification: the bearer's negotiated
MTU, whether the peer has set the Multiple Handle Value Notifications bit
in Client Supported Features, and whether the connection's security level
satisfies every attribute's requirements. -/
structure MultiCtx where
  mtu : Nat
  peer_supports_multi : Bool
  security_ok : Bool
deriving DecidableEq

/-- Wire size of one record inside an ATT_MULTIPLE_HANDLE_VALUE_NTF PDU:
2 bytes handle, 2 bytes length, then the value bytes. -/
def ntfRecordSize (p : MultiNtfParam) : Nat := 4 + p.len

/-- All records share one callback and one user-data pointer. -/
def sameCb (params : List MultiNtfParam) : Bool :=
  params.all (fun p =>
    p.func == (params.headD ⟨false, true, 0, 0, 0⟩).func &&
    p.user_data == (params.headD ⟨false, true, 0, 0, 0⟩).user_data)

/-- Observable callback events of a multi-notification. -/
inductive NtfEvent where
  | complete_cb (func user_data : Nat)
deriving DecidableEq

/-- Modelled from the spec: `bt_gatt_notify_multiple` of `gatt.c` (absent
from the snapshot), §4.4 and the header's documented return values:
usage checks first (2 or more records required, explicit attribute references
only, valid notifiable attributes, one shared callback/user-data pair,
each failing with `-EINVAL`), then the connection-level checks (`-EPERM`
on insufficient security, `-EOPNOTSUPP` when the peer has not negotiated
the PDU, `-ERANGE` when the combined records do not fit the bearer MTU);
on success the PDU is queued and the shared callback fires once per
record. -/
def bt_gatt_notify_multiple (ctx : MultiCtx) (params : List MultiNtfParam) :
    Int × List NtfEvent :=
  if params.length < 2 then (-EINVAL, [])
  else if params.any (fun p => p.has_uuid) then (-EINVAL, [])
  else if params.any (fun p => !p.attr_valid) then (-EINVAL, [])
  else if !(sameCb params) then (-EINVAL, [])
  else if !ctx.security_ok then (-EPERM, [])
  else if !ctx.peer_supports_multi then (-EOPNOTSUPP, [])
  else if (params.map ntfRecordSize).sum > ctx.mtu then (-ERANGE, [])
  else
    (0, params.map (fun _ =>
      NtfEvent.complete_cb (params.headD ⟨false, true, 0, 0, 0⟩).func
        (params.headD ⟨false, true, 0, 0, 0⟩).user_data))

/-- Modelled from the spec: the long-read continuation of `gatt.c` (absent
from the snapshot), §4.3/§4.6/§8: starting at offset `o` into a value of
length `L`, each read response carries up to `C` bytes from the current
offset; as long as a full chunk of `C` bytes was returned the callback's
`BT_GATT_ITER_CONTINUE` reissues the read at the advanced offset; a short
(or empty) response ends the sequence.  Each list element is
(offset, data length) of one read response. -/
def longReadChunks (C L o : Nat) : List (Nat × Nat) :=
  if _h : 0 < C ∧ o + C ≤ L then
    (o, C) :: longReadChunks C L (o + C)
  else
    [(o, L - o)]
termination_by L - o
decreasing_by omega

/-- Modelled from the spec: a full long read via `bt_gatt_read` with
`handle_count` 1, offset 0, always returning `BT_GATT_ITER_CONTINUE`. -/
def bt_gatt_long_read (C L : Nat) : List (Nat × Nat) := longReadChunks C L 0

/-- Number of read responses that carry data (nonzero length). -/
def dataResponses (resp : List (Nat × Nat)) : List (Nat × Nat) :=
  resp.filter (fun p => p.2 ≠ 0)

/-! ## Theorems -/

theorem runProcedure_ne_nil {α : Type} (items : List α) (cb : α → Nat) :
    runProcedure items cb ≠ [] := by
  cases items with
  | nil => simp [runProcedure]
  | cons x xs => by_cases h : cb x = BT_GATT_ITER_CONTINUE <;> simp [runProcedure, h]

theorem runProcedure_all_continue {α : Type} (items : List α) (cb : α → Nat)
    (h : ∀ x ∈ items, cb x = BT_GATT_ITER_CONTINUE) :
    runProcedure items cb = items.map some ++ [none] := by
  induction items with
  | nil => simp [runProcedure]
  | cons x xs ih =>
    have hx : cb x = BT_GATT_ITER_CONTINUE := h x (by simp)
    have hxs : ∀ y ∈ xs, cb y = BT_GATT_ITER_CONTINUE := fun y hy => h y (by simp [hy])
    simp [runProcedure, hx, ih hxs]

theorem runProcedure_stopped {α : Type} (items : List α) (cb : α → Nat)
    (h : ∃ x ∈ items, cb x ≠ BT_GATT_ITER_CONTINUE) :
    (none : Option α) ∉ runProcedure items cb := by
  induction items with
  | nil => simp at h
  | cons x xs ih =>
    by_cases hx : cb x = BT_GATT_ITER_CONTINUE
    · have hxs : ∃ y ∈ xs, cb y ≠ BT_GATT_ITER_CONTINUE := by
        rcases h with ⟨y, hy, hcy⟩
        rcases List.mem_cons.mp hy with hy | hy
        · exact absurd hx (hy ▸ hcy)
        · exact ⟨y, hy, hcy⟩
      simp [runProcedure, hx, ih hxs]
    · simp [runProcedure, hx]

theorem runProcedure_count_le_one {α : Type} [DecidableEq α] (items : List α) (cb : α → Nat) :
    (runProcedure items cb).count (none : Option α) ≤ 1 := by
  induction items with
  | nil => simp [runProcedure]
  | cons x xs ih =>
    by_cases hx : cb x = BT_GATT_ITER_CONTINUE
    · simpa [runProcedure, hx, List.count_cons] using ih
    · simp [runProcedure, hx, List.count_cons]

/-- C6: for every client procedure run, (a) when no callback invocation
requests stop, the callback sequence is all the data items followed by
exactly one final sentinel (`none`) invocation; (b) when some reachable
invocation returns `BT_GATT_ITER_STOP` (any value other than
`BT_GATT_ITER_CONTINUE`), the sentinel invocation never occurs; and (c) the
sentinel is never invoked more than once. -/
theorem C6_completion_sentinel {α : Type} [DecidableEq α] (items : List α) (cb : α → Nat) :
    ((∀ x ∈ items, cb x = BT_GATT_ITER_CONTINUE) →
        runProcedure items cb = items.map some ++ [none]) ∧
    ((∃ x ∈ items, cb x ≠ BT_GATT_ITER_CONTINUE) →
        (none : Option α) ∉ runProcedure items cb) ∧
    (runProcedure items cb).count (none : Option α) ≤ 1 :=
  ⟨runProcedure_all_continue items cb, runProcedure_stopped items cb,
   runProcedure_count_le_one items cb⟩

/-- C6 witness: concrete runs of the procedure engine, one completing with
the sentinel, one stopped by the callback. -/
theorem C6_completion_sentinel_witness :
    runProcedure [5, 7] (fun _ => BT_GATT_ITER_CONTINUE) = [some 5, some 7, none] ∧
    (none : Option Nat) ∉ runProcedure [5, 7] (fun _ => BT_GATT_ITER_STOP) :=
  ⟨(C6_completion_sentinel [5, 7] (fun _ => BT_GATT_ITER_CONTINUE)).1 (by decide),
   (C6_completion_sentinel [5, 7] (fun _ => BT_GATT_ITER_STOP)).2.1 (by decide)⟩

theorem indRun_destroyed (sigs : List IndSignal) : indRun .destroyed sigs = [] := by
  induction sigs with
  | nil => rfl
  | cons s rest ih => simpa [indRun, indStep] using ih

/-- C1: for every issued indication (state `inflight`) and every non-empty
sequence of termination signals — whichever of acknowledgment, protocol
error, cancellation or disconnection comes first, and whatever stale
signals race in afterwards — the emitted callback sequence is exactly one
completion callback carrying that first signal's outcome followed by
exactly one destroy callback; in particular `func` fires exactly once,
`destroy` fires exactly once, and `destroy` fires after `func`, and the
block leaves the in-flight state (release is signalled only by `destroy`),
so it is never released before the destroy callback has fired. -/
theorem C1_indicate_destroy_exactly_once (s : IndSignal) (rest : List IndSignal) :
    indRun .inflight (s :: rest) = [.func_cb (signalErr s), .destroy_cb] ∧
    ((indRun .inflight (s :: rest)).filter
        (fun e => match e with | .func_cb _ => true | _ => false)).length = 1 ∧
    (indRun .inflight (s :: rest)).count IndEvent.destroy_cb = 1 ∧
    (indRun .inflight (s :: rest)).getLast? = some IndEvent.destroy_cb := by
  have h : indRun .inflight (s :: rest) = [.func_cb (signalErr s), .destroy_cb] := by
    simp [indRun, indStep, indRun_destroyed]
  refine ⟨h, ?_, ?_, ?_⟩ <;> simp [h]

/-- C7: a local resource-exhaustion failure of an issuing call is reported
solely as an immediate negative return value (`-ENOMEM`): no completion
callback is invoked, and the request is not silently dropped — the queue
state is untouched so the caller knows nothing was enqueued; conversely
when a slot is free the call returns 0 and the request really is enqueued
(never silently dropped on the success path either). -/
theorem C7_resource_error_immediate (q : AttQueue) (req : Nat) :
    (q.pending.length ≥ q.capacity →
        (bt_gatt_issue q req).1 = -ENOMEM ∧ (bt_gatt_issue q req).1 < 0 ∧
        (bt_gatt_issue q req).2.2 = [] ∧ (bt_gatt_issue q req).2.1 = q) ∧
    (q.pending.length < q.capacity →
        (bt_gatt_issue q req).1 = 0 ∧
        req ∈ (bt_gatt_issue q req).2.1.pending ∧
        (bt_gatt_issue q req).2.2 = []) := by
  constructor
  · intro h
    simp [bt_gatt_issue, h, ENOMEM]
  · intro h
    have h' : ¬ q.pending.length ≥ q.capacity := by omega
    simp [bt_gatt_issue, h']

/-- C7 witness: a full queue (capacity 1, one pending request) rejects with
`-ENOMEM` and no events; a free queue accepts. -/
theorem C7_resource_error_immediate_witness :
    (bt_gatt_issue ⟨1, [4]⟩ 9).1 = -ENOMEM ∧ (bt_gatt_issue ⟨1, [4]⟩ 9).2.2 = [] ∧
    (bt_gatt_issue ⟨1, [4]⟩ 9).2.1 = ⟨1, [4]⟩ ∧
    (bt_gatt_issue ⟨2, [4]⟩ 9).1 = 0 ∧ 9 ∈ (bt_gatt_issue ⟨2, [4]⟩ 9).2.1.pending := by
  have h1 := (C7_resource_error_immediate ⟨1, [4]⟩ 9).1 (by decide)
  have h2 := (C7_resource_error_immediate ⟨2, [4]⟩ 9).2 (by decide)
  exact ⟨h1.1, h1.2.2.1, h1.2.2.2, h2.1, h2.2.1⟩

theorem assignHandles_false_eq (req : List Nat) :
    ∀ next hs, assignHandles next false req = some hs →
      hs = List.range' next req.length := by
  induction req with
  | nil =>
    intro next hs h
    simp only [assignHandles] at h
    injection h with h
    subst h
    simp
  | cons r rest ih =>
    intro next hs h
    simp only [assignHandles] at h
    split_ifs at h with hc
    cases hmatch : assignHandles (resolveHandle next r + 1) false rest with
    | none => rw [hmatch] at h; simp at h
    | some tl =>
      rw [hmatch, Option.map_some'] at h
      injection h with h
      subst h
      have htl := ih _ _ hmatch
      rw [hc] at htl
      simp only [List.length_cons]
      rw [List.range'_succ, hc, htl]

theorem assignHandles_true_eq (next r : Nat) (rest : List Nat) (hs : List Nat)
    (h : assignHandles next true (r :: rest) = some hs) :
    ∃ h0, next ≤ h0 ∧ hs = List.range' h0 (rest.length + 1) := by
  simp only [assignHandles] at h
  split_ifs at h with hc
  cases hmatch : assignHandles (resolveHandle next r + 1) false rest with
  | none => rw [hmatch] at h; simp at h
  | some tl =>
    rw [hmatch, Option.map_some'] at h
    injection h with h
    subst h
    refine ⟨resolveHandle next r, hc, ?_⟩
    rw [List.range'_succ, assignHandles_false_eq rest _ _ hmatch]

theorem chain'_succ_range' (s : Nat) :
    ∀ n, (List.range' s n).Chain' (fun a b => b = a + 1) := by
  intro n
  induction n generalizing s with
  | zero => simp
  | succ n ih =>
    rw [List.range'_succ]
    cases n with
    | zero => simp
    | succ m =>
      rw [List.range'_succ, List.chain'_cons]
      refine ⟨rfl, ?_⟩
      rw [← List.range'_succ]
      exact ih (s + 1)

theorem pairwise_lt_range'_one (s : Nat) :
    ∀ n, (List.range' s n).Pairwise (· < ·) := by
  intro n
  induction n generalizing s with
  | zero => simp
  | succ n ih =>
    rw [List.range'_succ]
    refine List.Pairwise.cons ?_ (ih (s + 1))
    intro b hb
    rcases List.mem_range'.mp hb with ⟨i, hi, rfl⟩
    omega

theorem getLast?_range'_succ (s : Nat) :
    ∀ n, 0 < n → (List.range' s n).getLast? = some (s + n - 1) := by
  intro n
  induction n generalizing s with
  | zero => intro h; omega
  | succ n ih =>
    intro _
    rw [List.range'_succ]
    cases n with
    | zero => simp
    | succ m =>
      rw [List.range'_succ, List.getLast?_cons_cons, ← List.range'_succ,
        ih (s + 1) (by omega)]
      congr 1
      omega

theorem register_preserves_WF (db : List RegService) (req : List Nat)
    (db' : List RegService) (h : bt_gatt_service_register db req = some db')
    (hdb : dbWF db) : dbWF db' := by
  cases req with
  | nil => simp [bt_gatt_service_register] at h
  | cons r rest =>
    unfold bt_gatt_service_register at h
    simp only [List.isEmpty_cons, Bool.false_eq_true, if_false] at h
    cases hassign : assignHandles (dbNextHandle db) true (r :: rest) with
    | none => rw [hassign] at h; simp at h
    | some hs =>
      rw [hassign] at h
      dsimp only at h
      split_ifs at h with hbig
      injection h with h
      subst h
      intro s hsmem
      rcases List.mem_append.mp hsmem with hmem | hmem
      · exact hdb s hmem
      · have hseq : s = ⟨hs, hs.getLast?.getD 0⟩ := by simpa using hmem
        subst hseq
        rcases assignHandles_true_eq _ _ _ _ hassign with ⟨h0, hh0, hhs⟩
        have hn : 0 < rest.length + 1 := by omega
        have hlast : hs.getLast? = some (h0 + (rest.length + 1) - 1) := by
          rw [hhs]; exact getLast?_range'_succ h0 _ hn
        have hnext1 : 1 ≤ dbNextHandle db := by
          unfold dbNextHandle; omega
        have hb : hs.getLast?.getD 0 ≤ 0xFFFF := by omega
        rw [hlast] at hb
        simp only [Option.getD_some] at hb
        unfold serviceWF
        refine ⟨?_, ?_, ?_, ?_, rfl⟩
        · rw [hhs]; simp
        · rw [hhs]; exact chain'_succ_range' h0 _
        · rw [hhs]; exact pairwise_lt_range'_one h0 _
        · intro x hx
          rw [hhs] at hx
          rcases List.mem_range'.mp hx with ⟨i, hi, rfl⟩
          omega

theorem unregister_preserves_WF (db : List RegService) (svc : RegService)
    (db' : List RegService) (h : bt_gatt_service_unregister db svc = some db')
    (hdb : dbWF db) : dbWF db' := by
  unfold bt_gatt_service_unregister at h
  split_ifs at h with hmem
  injection h with h
  subst h
  intro s hs
  exact hdb s (List.mem_of_mem_erase hs)

theorem applyOp_preserves_WF (db : List RegService) (op : GattOp) (hdb : dbWF db) :
    dbWF (applyOp db op) := by
  cases op with
  | register req =>
    unfold applyOp
    dsimp only
    cases hreg : bt_gatt_service_register db req with
    | none => simpa using hdb
    | some db' => simpa using register_preserves_WF db req db' hreg hdb
  | unregister svc =>
    unfold applyOp
    dsimp only
    cases hureg : bt_gatt_service_unregister db svc with
    | none => simpa using hdb
    | some db' => simpa using unregister_preserves_WF db svc db' hureg hdb

theorem applyOps_preserves_WF (ops : List GattOp) :
    ∀ db, dbWF db → dbWF (applyOps ops db) := by
  induction ops with
  | nil => intro db h; simpa [applyOps] using h
  | cons op rest ih =>
    intro db h
    have h1 := applyOp_preserves_WF db op h
    simpa [applyOps, List.foldl_cons] using ih _ h1

/-- C2: after every sequence of register/unregister operations on an
initially empty database, every registered service satisfies: its member
attribute handles form a non-empty, contiguous, strictly ascending (hence
unique) range of valid 16-bit handle values, and the service declaration's
`end_handle` equals the handle of the last member attribute. -/
theorem C2_service_handles_invariant (ops : List GattOp) (s : RegService)
    (hs : s ∈ applyOps ops []) :
    s.handles ≠ [] ∧
    s.handles.Chain' (fun a b => b = a + 1) ∧
    s.handles.Pairwise (· < ·) ∧
    (∀ h ∈ s.handles, 1 ≤ h ∧ h ≤ 0xFFFF) ∧
    s.end_handle = s.handles.getLast?.getD 0 :=
  applyOps_preserves_WF ops [] (fun t ht => absurd ht (List.not_mem_nil t)) s hs

/-- C2 witness: register a three-attribute service and a one-attribute
service, then unregister the first; the surviving service has the single
contiguous handle 4 with matching end handle. -/
theorem C2_service_handles_invariant_witness :
    ((⟨[4], 4⟩ : RegService) ∈ applyOps c2WitnessOps []) ∧
    ((⟨[4], 4⟩ : RegService).handles ≠ [] ∧
     (⟨[4], 4⟩ : RegService).handles.Chain' (fun a b => b = a + 1) ∧
     (⟨[4], 4⟩ : RegService).handles.Pairwise (· < ·) ∧
     (∀ h ∈ (⟨[4], 4⟩ : RegService).handles, 1 ≤ h ∧ h ≤ 0xFFFF) ∧
     (⟨[4], 4⟩ : RegService).end_handle =
       (⟨[4], 4⟩ : RegService).handles.getLast?.getD 0) :=
  ⟨by decide, C2_service_handles_invariant c2WitnessOps _ (by decide)⟩

/-- C3: whenever the permission check, a security-level check, or the
authorization callback fails, the request produces exactly the
corresponding specific error (insufficient permission, insufficient
authentication, insufficient encryption, not authorized), and on any such
failure the attribute's read/write capability is never invoked. -/
theorem C3_gate_blocks_capability (op : AttOp) (perm : Nat) (sec : ConnSecurity)
    (authzOk : Bool) :
    (hasBit perm (requiredPermBit op) = false →
      processRequest op perm sec authzOk =
        [.error_sent .insufficientPermission]) ∧
    (hasBit perm (requiredPermBit op) = true →
      (hasBit perm (authenBit op) && !sec.authenticated) = true →
      processRequest op perm sec authzOk =
        [.error_sent .insufficientAuthentication]) ∧
    (hasBit perm (requiredPermBit op) = true →
      (hasBit perm (authenBit op) && !sec.authenticated) = false →
      (hasBit perm (lescBit op) && !sec.lesc) = true →
      processRequest op perm sec authzOk =
        [.error_sent .insufficientAuthentication]) ∧
    (hasBit perm (requiredPermBit op) = true →
      (hasBit perm (authenBit op) && !sec.authenticated) = false →
      (hasBit perm (lescBit op) && !sec.lesc) = false →
      (hasBit perm (encryptBit op) && !sec.encrypted) = true →
      processRequest op perm sec authzOk =
        [.error_sent .insufficientEncryption]) ∧
    (hasBit perm (requiredPermBit op) = true →
      (hasBit perm (authenBit op) && !sec.authenticated) = false →
      (hasBit perm (lescBit op) && !sec.lesc) = false →
      (hasBit perm (encryptBit op) && !sec.encrypted) = false →
      authzOk = false →
      processRequest op perm sec authzOk = [.error_sent .notAuthorized]) ∧
    ((hasBit perm (requiredPermBit op) = false ∨
      (hasBit perm (authenBit op) && !sec.authenticated) = true ∨
      (hasBit perm (lescBit op) && !sec.lesc) = true ∨
      (hasBit perm (encryptBit op) && !sec.encrypted) = true ∨
      authzOk = false) →
      ServerEvent.capability_invoked ∉ processRequest op perm sec authzOk) := by
  refine ⟨?_, ?_, ?_, ?_, ?_, ?_⟩
  · intro h1
    simp [processRequest, h1]
  · intro h1 h2
    simp [processRequest, h1, h2]
  · intro h1 h2 h3
    simp [processRequest, h1, h2, h3]
  · intro h1 h2 h3 h4
    simp [processRequest, h1, h2, h3, h4]
  · intro h1 h2 h3 h4 h5
    simp [processRequest, h1, h2, h3, h4, h5]
  · intro h
    unfold processRequest
    split_ifs with h1 h2 h3 h4 h5 <;> try simp
    rcases h with h | h | h | h | h <;> simp_all

/-- C3 witness: a readable attribute demanding authentication on an
unauthenticated link yields the insufficient-authentication error; a
rejected authorization never reaches the capability. -/
theorem C3_gate_blocks_capability_witness :
    processRequest .read 17 ⟨true, false, true⟩ true =
      [ServerEvent.error_sent .insufficientAuthentication] ∧
    ServerEvent.capability_invoked ∉ processRequest .read 1 ⟨true, true, true⟩ false :=
  ⟨(C3_gate_blocks_capability .read 17 ⟨true, false, true⟩ true).2.1
      (by decide) (by decide),
   (C3_gate_blocks_capability .read 1 ⟨true, true, true⟩ false).2.2.2.2.2
      (Or.inr (Or.inr (Or.inr (Or.inr (by decide)))))⟩

/-- C4: every successful managed-CCC write leaves the stored aggregate
equal to the recomputed cross-peer aggregate of the table; if the
recomputed aggregate equals the previous aggregate the `cfg_changed`
callback is not invoked, and if it differs the callback is invoked exactly
once with the newly recomputed aggregate value. -/
theorem C4_ccc_change_callback (maxEntries : Nat) (st : CccManagedData)
    (id peer value : Nat) (out : CccManagedData × List CccEvent)
    (h : bt_gatt_attr_write_ccc maxEntries st id peer value = some out) :
    out.1.value = cccAggregate out.1.cfg ∧
    (out.1.value = st.value → out.2 = []) ∧
    (out.1.value ≠ st.value → out.2 = [CccEvent.cfg_changed out.1.value]) := by
  unfold bt_gatt_attr_write_ccc at h
  split_ifs at h
  injection h with h
  subst h
  simp only [cccApply]
  refine ⟨trivial, fun he => ?_, fun hn => ?_⟩
  · rw [if_pos he]
  · rw [if_neg hn]

/-- C4 witness: writing notify (1) into an empty managed CCC table changes
the aggregate from 0 to 1 and fires `cfg_changed` exactly once with 1. -/
theorem C4_ccc_change_callback_witness :
    ((⟨⟨[⟨0, 1, 1⟩], 1⟩, [CccEvent.cfg_changed 1]⟩ :
        CccManagedData × List CccEvent).1.value ≠
      (⟨[], 0⟩ : CccManagedData).value) ∧
    (⟨⟨[⟨0, 1, 1⟩], 1⟩, [CccEvent.cfg_changed 1]⟩ :
        CccManagedData × List CccEvent).2 =
      [CccEvent.cfg_changed (⟨⟨[⟨0, 1, 1⟩], 1⟩, [CccEvent.cfg_changed 1]⟩ :
        CccManagedData × List CccEvent).1.value] :=
  ⟨by decide,
   (C4_ccc_change_callback 2 ⟨[], 0⟩ 0 1 1
      ⟨⟨[⟨0, 1, 1⟩], 1⟩, [CccEvent.cfg_changed 1]⟩ (by decide)).2.2 (by decide)⟩

/-- C5: `bt_gatt_notify_multiple` fails with `-EINVAL` whenever fewer than
2 records are passed, some record carries a UUID instead of an explicit
attribute reference, or the records do not all share one
callback/user-data pair; for otherwise-valid calls it fails with
`-EOPNOTSUPP` when the peer has not negotiated Multiple Handle Value
Notifications, with `-ERANGE` when the combined records do not fit the
bearer MTU, and with 2+ valid same-callback records that fit it succeeds
and invokes the shared callback once per record. -/
theorem C5_notify_multiple_errors (ctx : MultiCtx) (params : List MultiNtfParam) :
    (params.length < 2 → bt_gatt_notify_multiple ctx params = (-EINVAL, [])) ∧
    (params.any (fun p => p.has_uuid) = true →
      bt_gatt_notify_multiple ctx params = (-EINVAL, [])) ∧
    (sameCb params = false →
      bt_gatt_notify_multiple ctx params = (-EINVAL, [])) ∧
    (2 ≤ params.length → params.any (fun p => p.has_uuid) = false →
      params.any (fun p => !p.attr_valid) = false → sameCb params = true →
      ctx.security_ok = true → ctx.peer_supports_multi = false →
      bt_gatt_notify_multiple ctx params = (-EOPNOTSUPP, [])) ∧
    (2 ≤ params.length → params.any (fun p => p.has_uuid) = false →
      params.any (fun p => !p.attr_valid) = false → sameCb params = true →
      ctx.security_ok = true → ctx.peer_supports_multi = true →
      ctx.mtu < (params.map ntfRecordSize).sum →
      bt_gatt_notify_multiple ctx params = (-ERANGE, [])) ∧
    (2 ≤ params.length → params.any (fun p => p.has_uuid) = false →
      params.any (fun p => !p.attr_valid) = false → sameCb params = true →
      ctx.security_ok = true → ctx.peer_supports_multi = true →
      (params.map ntfRecordSize).sum ≤ ctx.mtu →
      bt_gatt_notify_multiple ctx params =
        (0, params.map (fun _ =>
          NtfEvent.complete_cb (params.headD ⟨false, true, 0, 0, 0⟩).func
            (params.headD ⟨false, true, 0, 0, 0⟩).user_data))) := by
  refine ⟨?_, ?_, ?_, ?_, ?_, ?_⟩
  · intro h
    simp [bt_gatt_notify_multiple, h]
  · intro h
    unfold bt_gatt_notify_multiple
    split_ifs <;> simp_all
  · intro h
    unfold bt_gatt_notify_multiple
    split_ifs <;> simp_all
  · intro h1 h2 h3 h4 h5 h6
    have h1' : ¬ params.length < 2 := by omega
    simp [bt_gatt_notify_multiple, h1', h2, h3, h4, h5, h6]
  · intro h1 h2 h3 h4 h5 h6 h7
    have h1' : ¬ params.length < 2 := by omega
    simp [bt_gatt_notify_multiple, h1', h2, h3, h4, h5, h6, h7]
  · intro h1 h2 h3 h4 h5 h6 h7
    have h1' : ¬ params.length < 2 := by omega
    have h7' : ¬ ctx.mtu < (params.map ntfRecordSize).sum := by omega
    simp [bt_gatt_notify_multiple, h1', h2, h3, h4, h5, h6, h7']

/-- C5 witness: one record is a usage error; two valid same-callback
records that fit the MTU succeed and invoke the shared callback once per
record. -/
theorem C5_notify_multiple_errors_witness :
    bt_gatt_notify_multiple ⟨20, true, true⟩ [⟨false, true, 3, 7, 9⟩] =
      (-EINVAL, []) ∧
    bt_gatt_notify_multiple ⟨20, true, true⟩
        [⟨false, true, 3, 7, 9⟩, ⟨false, true, 5, 7, 9⟩] =
      (0, [NtfEvent.complete_cb 7 9, NtfEvent.complete_cb 7 9]) := by
  constructor
  · exact (C5_notify_multiple_errors ⟨20, true, true⟩ [⟨false, true, 3, 7, 9⟩]).1
      (by decide)
  · have h := (C5_notify_multiple_errors ⟨20, true, true⟩
        [⟨false, true, 3, 7, 9⟩, ⟨false, true, 5, 7, 9⟩]).2.2.2.2.2
      (by decide) (by decide) (by decide) (by decide) (by decide) (by decide)
      (by decide)
    simpa using h

theorem longReadChunks_eq (C L : Nat) (hC : 0 < C) :
    ∀ o, o ≤ L →
      longReadChunks C L o =
        ((List.range ((L - o) / C)).map (fun k => (o + k * C, C))) ++
          [(o + C * ((L - o) / C), (L - o) % C)] := by
  intro o
  induction o using longReadChunks.induct C L with
  | case1 o h ih =>
    intro _
    have ho : o + C ≤ L := h.2
    rw [longReadChunks, dif_pos h, ih (by omega)]
    have hm : L - o = (L - (o + C)) + C := by omega
    have hdiv : (L - o) / C = (L - (o + C)) / C + 1 := by
      rw [hm, Nat.add_div_right _ hC]
    have hmod : (L - o) % C = (L - (o + C)) % C := by
      rw [hm, Nat.add_mod_right]
    rw [hdiv, hmod, List.range_succ_eq_map]
    have hfun : ((fun k => (o + k * C, C)) ∘ Nat.succ) =
        (fun k => (o + C + k * C, (C : Nat))) := by
      funext k
      show (o + (k + 1) * C, C) = (o + C + k * C, C)
      have hx : o + (k + 1) * C = o + C + k * C := by ring
      rw [hx]
    have hlast : o + C * ((L - (o + C)) / C + 1) = o + C + C * ((L - (o + C)) / C) := by
      ring
    simp only [List.map_cons, List.map_map, Nat.zero_mul, Nat.add_zero, List.cons_append]
    rw [hfun, hlast]
  | case2 o h =>
    intro ho
    rw [longReadChunks, dif_neg h]
    have h' : ¬ (o + C ≤ L) := fun hcon => h ⟨hC, hcon⟩
    have hlt : L - o < C := by omega
    have hdiv : (L - o) / C = 0 := Nat.div_eq_of_lt hlt
    have hmod : (L - o) % C = L - o := Nat.mod_eq_of_lt hlt
    simp [hdiv, hmod]

theorem bt_gatt_long_read_eq (C L : Nat) (hC : 0 < C) :
    bt_gatt_long_read C L =
      ((List.range (L / C)).map (fun k => (k * C, C))) ++ [(C * (L / C), L % C)] := by
  have h := longReadChunks_eq C L hC 0 (Nat.zero_le L)
  simpa [bt_gatt_long_read] using h

theorem dataResponses_long_read (C L : Nat) (hC : 0 < C) :
    dataResponses (bt_gatt_long_read C L) =
      ((List.range (L / C)).map (fun k => (k * C, C))) ++
        (if L % C = 0 then [] else [(C * (L / C), L % C)]) := by
  rw [bt_gatt_long_read_eq C L hC]
  unfold dataResponses
  rw [List.filter_append, List.filter_map]
  have h1 : ((fun p : Nat × Nat => decide (p.2 ≠ 0)) ∘ fun k => (k * C, C)) =
      fun _ => true := by
    funext k
    simp [Function.comp]
    omega
  rw [h1, List.filter_true]
  by_cases h : L % C = 0 <;> simp [h]

/-- C8: for every long read of a value of length `L` in chunks of size
`C > 0`, exactly `⌈L / C⌉ = (L + C - 1) / C` read responses carry data, the
k-th data-carrying response starts at offset `k * C`, and the sequence
terminates with a response of data length 0 (when `C` divides `L`) or with
a final partial chunk of length `L % C < C`. -/
theorem C8_long_read_chunks (C L : Nat) (hC : 0 < C) :
    (dataResponses (bt_gatt_long_read C L)).length = (L + C - 1) / C ∧
    (∀ k, k < (dataResponses (bt_gatt_long_read C L)).length →
        ((dataResponses (bt_gatt_long_read C L)).getD k (0, 0)).1 = k * C) ∧
    ((bt_gatt_long_read C L).getLast? = some (C * (L / C), L % C) ∧
      (L % C = 0 ∨ L % C < C)) := by
  have hdata := dataResponses_long_read C L hC
  have hdm := Nat.div_add_mod L C
  have hmlt : L % C < C := Nat.mod_lt _ hC
  have hcm : C * (L / C) = (L / C) * C := Nat.mul_comm _ _
  have hceil : (L + C - 1) / C = L / C + if L % C = 0 then 0 else 1 := by
    by_cases h : L % C = 0
    · rw [if_pos h]
      rcases Nat.eq_zero_or_pos (L / C) with hq | hq
      · have hL0 : L = 0 := by
          have hdm' := hdm
          rw [hq, Nat.mul_zero, h] at hdm'
          omega
        subst hL0
        simp only [Nat.zero_add, Nat.zero_div, Nat.add_zero]
        exact Nat.div_eq_of_lt (by omega)
      · have key : L + C - 1 = (C - 1) + C * (L / C) := by omega
        rw [key, Nat.add_mul_div_left _ _ hC]
        have h2 : (C - 1) / C = 0 := Nat.div_eq_of_lt (by omega)
        omega
    · rw [if_neg h]
      have hdist : C * (L / C + 1) = C * (L / C) + C := by ring
      have key : L + C - 1 = (L % C - 1) + C * (L / C + 1) := by omega
      rw [key, Nat.add_mul_div_left _ _ hC]
      have h2 : (L % C - 1) / C = 0 := Nat.div_eq_of_lt (by omega)
      omega
  refine ⟨?_, ?_, ?_⟩
  · by_cases h : L % C = 0
    · rw [hdata, if_pos h, hceil, if_pos h]
      simp
    · rw [hdata, if_neg h, hceil, if_neg h]
      simp
  · intro k hk
    by_cases h : L % C = 0
    · rw [hdata, if_pos h] at hk
      rw [hdata, if_pos h, List.append_nil]
      rw [List.append_nil] at hk
      simp only [List.length_map, List.length_range] at hk
      rw [List.getD_eq_getElem _ _ (by simpa using hk)]
      simp
    · rw [hdata, if_neg h] at hk
      rw [hdata, if_neg h]
      simp only [List.length_append, List.length_map, List.length_range,
        List.length_cons, List.length_nil] at hk
      rcases Nat.lt_or_ge k (L / C) with hk' | hk'
      · rw [List.getD_eq_getElem _ _ (by
          simp only [List.length_append, List.length_map, List.length_range,
            List.length_cons, List.length_nil]
          omega)]
        rw [List.getElem_append_left (by simpa using hk')]
        simp
      · have hkeq : k = L / C := by omega
        subst hkeq
        rw [List.getD_eq_getElem _ _ (by
          simp only [List.length_append, List.length_map, List.length_range,
            List.length_cons, List.length_nil]
          omega)]
        rw [List.getElem_append_right (by
          simp only [List.length_map, List.length_range]
          omega)]
        simp [Nat.mul_comm]
  · constructor
    · rw [bt_gatt_long_read_eq C L hC]
      simp
    · right
      exact Nat.mod_lt _ hC

/-- C8 witness: a long read of a 5-byte value in chunks of 2 produces 3
data responses at offsets 0, 2, 4, ending in a partial chunk. -/
theorem C8_long_read_chunks_witness :
    (dataResponses (bt_gatt_long_read 2 5)).length = 3 ∧
    ((dataResponses (bt_gatt_long_read 2 5)).getD 2 (0, 0)).1 = 4 := by
  have h := C8_long_read_chunks 2 5 (by decide)
  exact ⟨h.1, by
    have h2 := h.2.1 2 (by rw [h.1]; decide)
    simpa using h2⟩

/-- C10: for every non-negative ATT error code `e`, `BT_GATT_ERR e = -e`,
`bt_gatt_err_to_str (BT_GATT_ERR e)` agrees with `bt_att_err_to_str e`
(whatever the string table is), and `bt_gatt_err_to_str` is invariant under
negation of its argument, so the GATT (negative) and ATT (positive)
encodings of one error map to the same string. -/
theorem C10_err_to_str_negation (f : Int → String) (e : Nat) (g : Int) :
    BT_GATT_ERR e = -(e : Int) ∧
    bt_gatt_err_to_str f (BT_GATT_ERR e) = f e ∧
    bt_gatt_err_to_str f (-g) = bt_gatt_err_to_str f g := by
  refine ⟨rfl, ?_, ?_⟩
  · unfold bt_gatt_err_to_str BT_GATT_ERR
    congr 1
    split_ifs <;> omega
  · unfold bt_gatt_err_to_str
    congr 1
    split_ifs <;> omega

/-- C9: `bt_gatt_notify conn attr data len` returns exactly
`bt_gatt_notify_cb conn params` where `params` has `attr`, `data` and `len`
set as given and every other field zeroed/`NULL` (`uuid`, `func`,
`user_data` are `NULL`; `chan_opt` is `BT_ATT_CHAN_OPT_NONE`, which is the
zero value). -/
theorem C9_notify_refines_notify_cb {Conn UUID Attr Data Func UserData : Type}
    (cb : Option Conn → bt_gatt_notify_params UUID Attr Data Func UserData → Int)
    (conn : Option Conn) (attr : Option Attr) (data : Option Data) (len : Nat) :
    bt_gatt_notify cb conn attr data len =
      cb conn { uuid := none, attr := attr, data := data, len := len,
                func := none, user_data := none, chan_opt := .NONE } := rfl

end Gatt
